import Mathlib

/-!
Verification of the core summary-generation module (`project_summary.js`):
directory traversal, file classification, per-format text extraction and
report assembly.  JavaScript values are embedded shallowly: machine strings
become `String`, JS `Set` literals become `List String` with `contains`,
fallible operations (`fs.readFile`, `pdfParse`, `mammoth`, `doc-parser`,
`fs.readdir`) become `Except String _` / `Option String` oracles carried by
the filesystem model, and a thrown exception is the `.error` branch.
-/

namespace Summarizer

/-- Set `IGNORED_DIRS` from `project_summary.js`: directory names never descended
into (the traversal filters any entry with one of these names). -/
def IGNORED_DIRS : List String :=
  ["node_modules", ".git", "dist", "build", ".vscode", ".idea",
   "venv", ".venv", "env",
   "__pycache__",
   ".pytest_cache",
   ".cache", ".config", "logs", "tmp", "temp", "coverage",
   ".husky",
   ".next", ".nuxt", ".vite", ".svelte-kit", "out",
   "vendor",
   ".nyc_output",
   ".build", "Pods", ".swiftpm", "xcuserdata", ".xcworkspace",
   ".terraform", ".vagrant",
   ".circleci",
   "__MACOSX"]

/-- Set `IGNORED_FILES` from `project_summary.js`: file names shown in the
structure but excluded from content extraction. -/
def IGNORED_FILES : List String :=
  ["package-lock.json",
   ".env", ".env.local", ".env.development", ".env.production",
   "poetry.lock", "Pipfile.lock",
   "yarn.lock", "pnpm-lock.yaml",
   "composer.lock",
   "Package.resolved",
   "terraform.tfstate", "terraform.tfstate.backup",
   "LICENSE", "LICENSE.txt",
   "CHANGELOG.md", "CHANGELOG.txt",
   "CONTRIBUTING.md", "CONTRIBUTING.txt",
   "CODE_OF_CONDUCT.md", "CODE_OF_CONDUCT.txt",
   "SECURITY.md", "SECURITY.txt",
   ".DS_Store"]

/-- Set `NON_TEXT_EXTENSIONS` from `project_summary.js`: extensions considered
binary and skipped unless handled by a dedicated parser. -/
def NON_TEXT_EXTENSIONS : List String :=
  [".png", ".jpg", ".jpeg", ".gif", ".bmp", ".svg", ".ico", ".webp",
   ".exe", ".dll", ".so", ".o", ".class", ".pyc", ".wasm", ".jar", ".bundle",
   ".zip", ".tar", ".gz", ".rar", ".7z", ".tgz", ".bz2",
   ".mp3", ".wav", ".mp4", ".avi", ".mov", ".flac", ".ogg", ".mkv",
   ".ttf", ".otf", ".woff", ".woff2", ".eot",
   ".DS_Store",
   ".map",
   ".sqlite3", ".db",
   ".lock",
   ".iml",
   ".sublime-project", ".sublime-workspace",
   ".idea",
   ".classpath", ".project",
   ".xcodeproj", ".xcworkspace",
   ".apk",
   ".ipa"]

/-- The three extensions `isTextFile` singles out for dedicated document
parsers (`ext === δ` checks at the top of `isTextFile`). -/
def documentExtensions : List String := [".pdf", ".docx", ".doc"]

/-- Index of the last occurrence of a dot in a character list (accumulator
form), used to embed Node `path.extname`. -/
def lastDotIdxAux : List Char → Nat → Option Nat → Option Nat
  | [], _, acc => acc
  | c :: cs, i, acc => lastDotIdxAux cs (i + 1) (if c = '.' then some i else acc)

/-- Node `path.extname` restricted to basenames (no path separator), which is
how the module applies it: entry names never contain a separator.  Semantics
of Node for a basename `s`: empty result when `s` has no dot, when the last
dot is the leading character (hidden files such as `.env`), or when `s` is
exactly `".."`; otherwise the substring from the last dot onward. -/
def extname (name : String) : String :=
  match lastDotIdxAux name.data 0 none with
  | none => ""
  | some i =>
      if i = 0 then ""
      else if name = ".." then ""
      else String.mk (name.data.drop i)

/-- JS `String.prototype.toLowerCase`, embedded as a character-wise map;
`Char.toLower` agrees with JS on the ASCII extension strings involved. -/
def toLowerStr (s : String) : String := String.mk (s.data.map Char.toLower)

/-- Function `isTextFile` from `project_summary.js` (second revision, the one the spec
documents).  `path.extname(filePath)` only inspects the basename, so the
embedding receives the entry name. -/
def isTextFile (filePath : String) : Bool :=
  let ext := toLowerStr (extname filePath)
  if ext == ".pdf" || ext == ".docx" || ext == ".doc" then true
  else ext == "" || !(NON_TEXT_EXTENSIONS.contains ext)

/-- Whether `pat` occurs as a contiguous sublist of the second argument;
embeds JS `String.prototype.includes`. -/
def hasSubList (pat : List Char) : List Char → Bool
  | [] => pat.isEmpty
  | c :: cs => pat.isPrefixOf (c :: cs) || hasSubList pat cs

/-- JS `s.includes(pat)`. -/
def strIncludes (s pat : String) : Bool := hasSubList pat.data s.data

/-- JS `String.prototype.trim`, embedded as stripping leading and trailing
whitespace characters from the character list (`Char.isWhitespace` covers
the whitespace the sources can produce). -/
def jsTrim (s : String) : String :=
  String.mk (((s.data.dropWhile Char.isWhitespace).reverse.dropWhile
    Char.isWhitespace).reverse)

/-- Successful result of `pdf-parse`: page count (`data.numpages`) and
extracted text (`data.text`). -/
structure PdfData where
  numpages : Nat
  text : String
deriving DecidableEq, Repr

deriving instance DecidableEq for Except

/-- What the fallible externals would do for one file: `readText` is
`fs.readFile(path, 'utf8')`, `pdf` is `fs.readFile` + `pdfParse` combined,
`docx` is `mammoth.extractRawText(...).value`, and `doc` is the
`doc-parser` result.  `.error m` is a thrown exception with message `m`. -/
structure FileBehavior where
  readText : Except String String
  pdf : Except String PdfData
  docx : Except String String
  doc : Except String String
deriving DecidableEq, Repr

/-- Function `extractPdfText` from `project_summary.js` (lines 387-412). -/
def extractPdfText (fb : FileBehavior) (base : String) : String :=
  match fb.pdf with
  | .ok data =>
      if data.text == "" || jsTrim data.text == "" then
        "--- No text extracted from PDF " ++ base ++
          " by pdf-parse. The PDF may be empty or contain only images. ---"
      else
        "[Extracted from " ++ toString data.numpages ++ " page(s)]\n\n" ++ data.text
  | .error msg =>
      if strIncludes msg "Password" || strIncludes msg "encrypted" then
        "--- Error: PDF " ++ base ++ " is likely password-protected or encrypted. ---"
      else
        "--- Error extracting text from PDF " ++ base ++ " using pdf-parse. ---"

/-- Function `extractDocxText` from `project_summary.js` (lines 466-477); the JS
`result.value || marker` falls back exactly when the value is the empty
string. -/
def extractDocxText (fb : FileBehavior) (base : String) : String :=
  match fb.docx with
  | .ok v =>
      if v == "" then "--- No text extracted from DOCX " ++ base ++ ". ---" else v
  | .error _ => "--- Error extracting text from DOCX " ++ base ++ ". ---"

/-- Function `extractDocTextDirectly` from `project_summary.js` (lines 437-459). -/
def extractDocTextDirectly (fb : FileBehavior) (base : String) : String :=
  match fb.doc with
  | .ok content =>
      if content == "" || jsTrim content == "" then
        "--- No text extracted from DOC " ++ base ++ " by doc-parser. ---"
      else content
  | .error _ =>
      "--- Error extracting text from DOC " ++ base ++
        " using doc-parser. The library might not support this specific file or format. ---"

/-- Function `readFileContent` from `project_summary.js` (lines 540-562).  The three
document extractors catch every failure internally, so the only exception
reaching the outer `catch` is the plain `fs.readFile` one. -/
def readFileContent (fb : FileBehavior) (fileName relativePath : String) : String :=
  let ext := toLowerStr (extname fileName)
  if ext == ".pdf" then extractPdfText fb fileName
  else if ext == ".docx" then extractDocxText fb fileName
  else if ext == ".doc" then extractDocTextDirectly fb fileName
  else
    match fb.readText with
    | .ok content => content
    | .error _ =>
        "--- Error reading file: " ++ relativePath ++ ". Content omitted. ---"

/-- A directory entry as `fs.readdir(..., { withFileTypes: true })` reports
it.  `dir name readErr children`: a directory whose own `readdir` throws
with message `m` when `readErr = some m`; `file`: a regular file together
with its external behaviors; `other`: an entry that is neither a directory
nor a regular file (symlink, FIFO, socket). -/
inductive FsEntry where
  | dir (name : String) (readErr : Option String) (children : List FsEntry)
  | file (name : String) (fb : FileBehavior)
  | other (name : String)
deriving Repr

/-- Accessor for `entry.name`. -/
def FsEntry.name : FsEntry → String
  | .dir n _ _ => n
  | .file n _ => n
  | .other n => n

/-- A path pushed onto `textFiles`: directory part relative to the root (as
components) plus the basename, with the file's external behaviors. -/
structure FoundFile where
  relDir : List String
  name : String
  fb : FileBehavior
deriving DecidableEq, Repr

/-- Value of `path.relative(targetDir, filePath)` for a file discovered by the
traversal (always strictly below the root, so it is the joined components). -/
def relPathOf (f : FoundFile) : String :=
  String.intercalate "/" (f.relDir ++ [f.name])

/-- Observable output of one `traverseDirectory` call: the returned
`structureOutput` string, the entries pushed onto `textFiles` (in push
order), and the `console.error` lines emitted. -/
structure TravRes where
  structureOutput : String
  textFiles : List FoundFile
  logLines : List String
deriving DecidableEq, Repr

/-- Display name `relativeDir || path.basename(rootPath) || 'root directory'` from the
`catch` block of `traverseDirectory`. -/
def dirDisplayName (rootName : String) (relDir : List String) : String :=
  let relativeDir := String.intercalate "/" relDir
  if relativeDir == "" then (if rootName == "" then "root directory" else rootName)
  else relativeDir

/-- The `console.error` line of `traverseDirectory`'s `catch` block. -/
def dirReadErrorLog (rootName : String) (relDir : List String) (msg : String) : String :=
  "❌ Error reading directory \x27" ++ dirDisplayName rootName relDir ++ "\x27: " ++ msg

/-- The filter applied to `entries` before the loop:
`entries.filter(entry => !IGNORED_DIRS.has(entry.name))`. -/
def notIgnoredDir (e : FsEntry) : Bool := !(IGNORED_DIRS.contains e.name)

theorem sizeOf_filter_le (p : FsEntry → Bool) (l : List FsEntry) :
    sizeOf (l.filter p) ≤ sizeOf l := by
  induction l with
  | nil => simp [List.filter]
  | cons e rest ih =>
      simp only [List.filter]
      cases p e <;> simp only [] <;> simp_arith <;> omega

mutual

/-- One iteration of the `for` loop of `traverseDirectory` (lines 497-522),
for the entry `e`, given the root basename, the directory part relative to
the root, the current `structurePrefix` and whether `e` is the last filtered
entry. -/
def travEntry (rootName : String) (relDir : List String) (pre : String)
    (isLast : Bool) : FsEntry → TravRes
  | .file n fb =>
      { structureOutput := pre ++ (if isLast then "└── " else "├── ") ++ n ++ "\n"
        textFiles :=
          if !(IGNORED_FILES.contains n) && isTextFile n then
            [{ relDir := relDir, name := n, fb := fb }]
          else []
        logLines := [] }
  | .other n =>
      { structureOutput := pre ++ (if isLast then "└── " else "├── ") ++ n ++ "\n"
        textFiles := []
        logLines := [] }
  | .dir n readErr children =>
      let line := pre ++ (if isLast then "└── " else "├── ") ++ n ++ "\n"
      let nextPre := pre ++ (if isLast then "    " else "│   ")
      match readErr with
      | some msg =>
          { structureOutput := line
            textFiles := []
            logLines := [dirReadErrorLog rootName (relDir ++ [n]) msg] }
      | none =>
          let sub := travChildren rootName (relDir ++ [n]) nextPre
            (children.filter notIgnoredDir)
          { structureOutput := line ++ sub.structureOutput
            textFiles := sub.textFiles
            logLines := sub.logLines }
termination_by e => sizeOf e
decreasing_by
  simp_wf
  have h := sizeOf_filter_le notIgnoredDir children
  omega

/-- The `for` loop of `traverseDirectory` over the already-filtered entry
list; the last element gets `isLast = true` (`i === filteredEntries.length - 1`). -/
def travChildren (rootName : String) (relDir : List String) (pre : String) :
    List FsEntry → TravRes
  | [] => { structureOutput := "", textFiles := [], logLines := [] }
  | [e] => travEntry rootName relDir pre true e
  | e :: e2 :: rest =>
      let r1 := travEntry rootName relDir pre false e
      let r2 := travChildren rootName relDir pre (e2 :: rest)
      { structureOutput := r1.structureOutput ++ r2.structureOutput
        textFiles := r1.textFiles ++ r2.textFiles
        logLines := r1.logLines ++ r2.logLines }
termination_by l => sizeOf l
decreasing_by
  all_goals simp_wf
  all_goals omega

end

/-- The body of `traverseDirectory` after a successful `readdir`: filter the
entries, then run the loop. -/
def processDir (rootName : String) (relDir : List String) (pre : String)
    (children : List FsEntry) : TravRes :=
  travChildren rootName relDir pre (children.filter notIgnoredDir)

/-- Root-level call `traverseDirectory(targetDir, targetDir, textFiles, '')`: the root-level
call: a failing `readdir` is caught, logged and yields an empty structure
string; otherwise the loop runs over the filtered entries. -/
def traverseDirectory (rootName : String) (readErr : Option String)
    (children : List FsEntry) : TravRes :=
  match readErr with
  | some msg =>
      { structureOutput := ""
        textFiles := []
        logLines := [dirReadErrorLog rootName [] msg] }
  | none => processDir rootName [] "" children

/-- The root directory handed to `generateProjectSummary`: its basename
(`path.basename(targetDir)`), the behavior of `fs.readdir` on it, and its
entries. -/
structure ProjectRoot where
  rootName : String
  readErr : Option String
  children : List FsEntry
deriving Repr

/-- JS `content.endsWith(pat)`, embedded as a suffix test on the character
lists. -/
def strEndsWith (s pat : String) : Bool := pat.data.isSuffixOf s.data

/-- One iteration of the content loop of `generateProjectSummary`
(lines 591-601): header, content, conditional newline (`content` truthy and
not already newline-terminated), footer. -/
def fileBlock (f : FoundFile) : String :=
  let relativePath := relPathOf f
  let content := readFileContent f.fb f.name relativePath
  "\n--- File: " ++ relativePath ++ " ---\n" ++ content ++
    (if !(content == "") && !(strEndsWith content "\n") then "\n" else "") ++
    "--- End of File: " ++ relativePath ++ " ---\n"

/-- The content loop of `generateProjectSummary`, appending one block per
collected file onto the output buffer, in list order. -/
def appendFileBlocks : List FoundFile → String → String
  | [], buf => buf
  | f :: rest, buf => appendFileBlocks rest (buf ++ fileBlock f)

/-- Function `generateProjectSummary` from `project_summary.js` (lines 572-605). -/
def generateProjectSummary (root : ProjectRoot) : String :=
  let projectName := root.rootName
  let trav := traverseDirectory root.rootName root.readErr root.children
  let buf1 := "--- Section 1: Folder Structure ---\n" ++ projectName ++ "\n" ++
    trav.structureOutput
  let buf2 := buf1 ++ "\n--- Section 2: File Contents (" ++
    toString trav.textFiles.length ++ " files) ---\n"
  if trav.textFiles.length == 0 then buf2 ++ "No text files found to display.\n"
  else appendFileBlocks trav.textFiles buf2

/-- The content blocks of the report as a list, spec-side view
(`SummaryReport.contentBlocks` in the specification): one
`(relativePath, content)` pair per collected file, in list order. -/
def contentBlocks (root : ProjectRoot) : List (String × String) :=
  (traverseDirectory root.rootName root.readErr root.children).textFiles.map
    (fun f => (relPathOf f, readFileContent f.fb f.name (relPathOf f)))

/-- Specification-side description of the collected file list: the eligible
files of the tree in pre-order (parents before subtrees, siblings in listing
order), skipping entries named in `IGNORED_DIRS`, subtrees of unreadable
directories, and files that are ignored by name or fail `isTextFile`.
Stated from the specification's words; the traversal is proved to produce
exactly this list. -/
def filesInPreorder (relDir : List String) : List FsEntry → List FoundFile
  | [] => []
  | .dir n readErr cs :: rest =>
      (if IGNORED_DIRS.contains n then []
       else
         match readErr with
         | none => filesInPreorder (relDir ++ [n]) cs
         | some _ => []) ++ filesInPreorder relDir rest
  | .file n fb :: rest =>
      (if IGNORED_DIRS.contains n then []
       else if !(IGNORED_FILES.contains n) && isTextFile n then
         [{ relDir := relDir, name := n, fb := fb }]
       else []) ++ filesInPreorder relDir rest
  | .other _ :: rest => filesInPreorder relDir rest

/-- Per-entry contribution to the collected-files list (proof-side view of
one loop iteration, used to relate the traversal to `filesInPreorder`). -/
def entryFilesSpec (relDir : List String) : FsEntry → List FoundFile
  | .dir n none cs => filesInPreorder (relDir ++ [n]) cs
  | .dir _ (some _) _ => []
  | .file n fb =>
      if !(IGNORED_FILES.contains n) && isTextFile n then
        [{ relDir := relDir, name := n, fb := fb }]
      else []
  | .other _ => []

/-- Contribution of an (already filtered) entry list to the collected files. -/
def listFilesSpec (relDir : List String) (l : List FsEntry) : List FoundFile :=
  (l.map (entryFilesSpec relDir)).flatten

theorem listFilesSpec_filter (relDir : List String) (l : List FsEntry) :
    listFilesSpec relDir (l.filter notIgnoredDir) = filesInPreorder relDir l := by
  induction l with
  | nil => simp [listFilesSpec, filesInPreorder]
  | cons e rest ih =>
      by_cases hig : e.name ∈ IGNORED_DIRS
      · have hni : notIgnoredDir e = false := by simp [notIgnoredDir, hig]
        have hstep : List.filter notIgnoredDir (e :: rest) = List.filter notIgnoredDir rest := by
          simp [List.filter_cons, hni]
        rw [hstep, ih]
        cases e with
        | dir n readErr cs =>
            try simp only [FsEntry.name] at hig
            cases readErr <;> simp [filesInPreorder, hig]
        | file n fb =>
            try simp only [FsEntry.name] at hig
            simp [filesInPreorder, hig]
        | other n => simp [filesInPreorder]
      · have hni : notIgnoredDir e = true := by simp [notIgnoredDir, hig]
        have hstep : List.filter notIgnoredDir (e :: rest) =
            e :: List.filter notIgnoredDir rest := by
          simp [List.filter_cons, hni]
        rw [hstep]
        have hunf : listFilesSpec relDir (e :: List.filter notIgnoredDir rest) =
            entryFilesSpec relDir e ++ listFilesSpec relDir (List.filter notIgnoredDir rest) := by
          simp [listFilesSpec]
        rw [hunf, ih]
        cases e with
        | dir n readErr cs =>
            try simp only [FsEntry.name] at hig
            cases readErr <;> simp [filesInPreorder, entryFilesSpec, hig]
        | file n fb =>
            try simp only [FsEntry.name] at hig
            simp [filesInPreorder, entryFilesSpec, hig]
        | other n =>
            simp [filesInPreorder, entryFilesSpec]

theorem travChildren_files (rootName : String) :
    ∀ (relDir : List String) (pre : String) (l : List FsEntry),
      (travChildren rootName relDir pre l).textFiles = listFilesSpec relDir l :=
  travChildren.induct rootName
    (fun relDir pre isLast e =>
      (travEntry rootName relDir pre isLast e).textFiles = entryFilesSpec relDir e)
    (fun relDir pre l =>
      (travChildren rootName relDir pre l).textFiles = listFilesSpec relDir l)
    (by intro relDir pre isLast n fb; simp [travEntry, entryFilesSpec])
    (by intro relDir pre isLast n; simp [travEntry, entryFilesSpec])
    (by intro relDir pre isLast n children msg; simp [travEntry, entryFilesSpec])
    (by
      intro relDir pre isLast n children nextPre ih
      simp only [travEntry]
      exact ih.trans (by rw [listFilesSpec_filter]; rfl))
    (by intro relDir pre; simp [travChildren, listFilesSpec])
    (by
      intro relDir pre e ih
      simp only [travChildren, listFilesSpec, List.map_cons, List.map_nil,
        List.flatten_cons, List.flatten_nil, List.append_nil]
      exact ih)
    (by
      intro relDir pre e e2 rest ih1 ih2
      simp only [travChildren, listFilesSpec, List.map_cons, List.flatten_cons] at ih1 ih2 ⊢
      rw [ih1, ih2])

theorem travEntry_files (rootName : String) (relDir : List String) (pre : String)
    (isLast : Bool) (e : FsEntry) :
    (travEntry rootName relDir pre isLast e).textFiles = entryFilesSpec relDir e := by
  cases e with
  | file n fb => simp [travEntry, entryFilesSpec]
  | other n => simp [travEntry, entryFilesSpec]
  | dir n readErr cs =>
      cases readErr with
      | some m => simp [travEntry, entryFilesSpec]
      | none =>
          have ih := travChildren_files rootName (relDir ++ [n])
            (pre ++ if isLast then "    " else "│   ") (cs.filter notIgnoredDir)
          simp only [travEntry]
          exact ih.trans (by rw [listFilesSpec_filter]; rfl)

theorem processDir_files (rootName : String) (relDir : List String) (pre : String)
    (children : List FsEntry) :
    (processDir rootName relDir pre children).textFiles = filesInPreorder relDir children := by
  rw [processDir, travChildren_files, listFilesSpec_filter]

theorem traverseDirectory_files (rootName : String) (children : List FsEntry) :
    (traverseDirectory rootName none children).textFiles = filesInPreorder [] children := by
  rw [traverseDirectory, processDir_files]

theorem filesInPreorder_append (relDir : List String) (a b : List FsEntry) :
    filesInPreorder relDir (a ++ b) =
      filesInPreorder relDir a ++ filesInPreorder relDir b := by
  induction a with
  | nil => simp [filesInPreorder]
  | cons e rest ih =>
      cases e with
      | dir n readErr cs => cases readErr <;> simp [filesInPreorder, ih, List.append_assoc]
      | file n fb => simp [filesInPreorder, ih, List.append_assoc]
      | other n => simp [filesInPreorder, ih]

/-- Modelled from the spec: character class `[A-Za-z0-9_-]` of the video-id
group in the transcript-splicing pattern (the splicing code itself is not
among the provided sources; §4.3 of the spec defines it). -/
def isIdChar (c : Char) : Bool :=
  ('A' ≤ c && c ≤ 'Z') || ('a' ≤ c && c ≤ 'z') || ('0' ≤ c && c ≤ '9') ||
    c == '_' || c == '-'

/-- Match a literal string at the head of the input, returning the rest. -/
def matchLit (pat : String) (l : List Char) : Option (List Char) :=
  if pat.data.isPrefixOf l then some (l.drop pat.data.length) else none

/-- Modelled from the spec: the `([A-Za-z0-9_-]{11})` group — exactly eleven
identifier characters.  Returns the id characters and the rest. -/
def matchId (l : List Char) : Option (List Char × List Char) :=
  let idc := l.take 11
  if idc.length == 11 && idc.all isIdChar then some (idc, l.drop 11) else none

/-- Modelled from the spec: one alternative of the host alternation — the
host literal followed by the id group.  Returns
(consumed characters, id characters, rest). -/
def matchHostAlt (host : String) (l : List Char) :
    Option (List Char × List Char × List Char) :=
  match matchLit host l with
  | some r1 =>
      (match matchId r1 with
       | some (idc, rest) => some (host.data ++ idc, idc, rest)
       | none => none)
  | none => none

/-- Modelled from the spec: the host alternation
`(?:youtube.com/watch?v=|youtu.be/)` followed by the id group, alternatives
tried left to right with backtracking between them. -/
def matchHostId (l : List Char) : Option (List Char × List Char × List Char) :=
  match matchHostAlt "youtube.com/watch?v=" l with
  | some x => some x
  | none => matchHostAlt "youtu.be/" l

/-- Modelled from the spec: the optional greedy group `(?:www.)?`, whose dot
is the regex any-character (JS `.` excludes line terminators); if taking the
group does not let the remainder match, it is skipped. -/
def matchWwwHostId (l : List Char) : Option (List Char × List Char × List Char) :=
  match l with
  | 'w' :: 'w' :: 'w' :: c :: rest =>
      if c == '\n' || c == '\r' then matchHostId l
      else
        match matchHostId rest with
        | some (u, idc, r) => some ('w' :: 'w' :: 'w' :: c :: u, idc, r)
        | none => matchHostId l
  | _ => matchHostId l

/-- Modelled from the spec: the scheme part `https?://`, the optional `s`
tried greedily first. -/
def matchScheme (l : List Char) : Option (List Char × List Char) :=
  match matchLit "https://" l with
  | some r => some ("https://".data, r)
  | none =>
      match matchLit "http://" l with
      | some r => some ("http://".data, r)
      | none => none

/-- Modelled from the spec: one attempt of the whole pattern
`(https?://(?:www.)?(?:youtube.com/watch?v=|youtu.be/)([A-Za-z0-9_-]{11}))`
at the current position; on success returns (matched URL, video id, rest). -/
def tryMatchUrl (l : List Char) : Option (String × String × List Char) :=
  match matchScheme l with
  | none => none
  | some (sch, r1) =>
      match matchWwwHostId r1 with
      | none => none
      | some (u, idc, rest) => some (String.mk (sch ++ u), String.mk idc, rest)

theorem matchLit_eq {pat : String} {l r : List Char}
    (h : matchLit pat l = some r) : pat.data ++ r = l := by
  unfold matchLit at h
  split at h
  · next hp =>
      cases h
      have hpre : pat.data <+: l := by
        exact List.isPrefixOf_iff_prefix.mp hp
      obtain ⟨t, ht⟩ := hpre
      subst ht
      rw [List.drop_left]
  · exact absurd h (by simp)

theorem matchId_eq {l idc r : List Char}
    (h : matchId l = some (idc, r)) : idc ++ r = l ∧ idc ≠ [] := by
  simp only [matchId] at h
  split at h
  · next hc =>
      simp only [Option.some.injEq, Prod.mk.injEq] at h
      obtain ⟨h1, h2⟩ := h
      subst h1
      subst h2
      refine ⟨List.take_append_drop 11 l, ?_⟩
      have hlen : (l.take 11).length = 11 := by
        have := (Bool.and_eq_true _ _).mp hc |>.1
        simpa using this
      intro hnil
      rw [hnil] at hlen
      simp at hlen
  · simp at h

theorem matchHostAlt_eq {host : String} {l u idc r : List Char}
    (h : matchHostAlt host l = some (u, idc, r)) : u ++ r = l ∧ u ≠ [] := by
  unfold matchHostAlt at h
  split at h
  · next r1 hlit =>
      split at h
      · next idc2 rest hid =>
          simp only [Option.some.injEq, Prod.mk.injEq] at h
          obtain ⟨hu, hidc, hr⟩ := h
          subst hu
          subst hr
          obtain ⟨hid1, hid2⟩ := matchId_eq hid
          have hlit1 := matchLit_eq hlit
          refine ⟨?_, by simpa using fun _ => hid2⟩
          rw [List.append_assoc, hid1, hlit1]
      · simp at h
  · simp at h

theorem matchHostId_eq {l u idc r : List Char}
    (h : matchHostId l = some (u, idc, r)) : u ++ r = l ∧ u ≠ [] := by
  unfold matchHostId at h
  split at h
  · next x hx =>
      injection h with h2
      subst h2
      exact matchHostAlt_eq hx
  · exact matchHostAlt_eq h

theorem matchWwwHostId_eq {l u idc r : List Char}
    (h : matchWwwHostId l = some (u, idc, r)) : u ++ r = l ∧ u ≠ [] := by
  unfold matchWwwHostId at h
  split at h
  · next c rest =>
      split at h
      · exact matchHostId_eq h
      · split at h
        · next u2 idc2 r2 hrec =>
            simp only [Option.some.injEq, Prod.mk.injEq] at h
            obtain ⟨hu, hidc, hr⟩ := h
            subst hu
            subst hr
            obtain ⟨h1, h2⟩ := matchHostId_eq hrec
            refine ⟨?_, by simp⟩
            simp only [List.cons_append, List.append_assoc] at h1 ⊢
            rw [h1]
        · exact matchHostId_eq h
  · exact matchHostId_eq h

theorem matchScheme_eq {l sch r : List Char}
    (h : matchScheme l = some (sch, r)) : sch ++ r = l ∧ sch ≠ [] := by
  unfold matchScheme at h
  split at h
  · next hlit =>
      simp only [Option.some.injEq, Prod.mk.injEq] at h
      obtain ⟨hs, hr⟩ := h
      subst hs
      subst hr
      exact ⟨matchLit_eq hlit, by simp⟩
  · split at h
    · next hlit =>
        simp only [Option.some.injEq, Prod.mk.injEq] at h
        obtain ⟨hs, hr⟩ := h
        subst hs
        subst hr
        exact ⟨matchLit_eq hlit, by simp⟩
    · simp at h

theorem tryMatchUrl_eq {l rest : List Char} {u vid : String}
    (h : tryMatchUrl l = some (u, vid, rest)) : u.data ++ rest = l ∧ u.data ≠ [] := by
  unfold tryMatchUrl at h
  split at h
  · simp at h
  · next sch r1 hsch =>
      split at h
      · simp at h
      · next u2 idc r2 hw =>
          simp only [Option.some.injEq, Prod.mk.injEq] at h
          obtain ⟨hu, hvid, hr⟩ := h
          subst hu
          obtain ⟨hs1, hs2⟩ := matchScheme_eq hsch
          obtain ⟨hw1, hw2⟩ := matchWwwHostId_eq hw
          constructor
          · show (sch ++ u2) ++ rest = l
            rw [← hr, List.append_assoc, hw1, hs1]
          · show sch ++ u2 ≠ []
            simp [hs2]

theorem tryMatchUrl_rest_lt {l rest : List Char} {u vid : String}
    (h : tryMatchUrl l = some (u, vid, rest)) : rest.length < l.length := by
  obtain ⟨h1, h2⟩ := tryMatchUrl_eq h
  have := congrArg List.length h1
  simp only [List.length_append] at this
  have hpos : 0 < u.data.length := List.length_pos.mpr h2
  omega

/-- Modelled from the spec: the decomposition of plain-text content into
literal characters and recognized video URLs, scanning left to right and
restarting after each match (the behavior of a global regex scan). -/
inductive Tok where
  | plain (c : Char)
  | url (u : String) (vid : String)
deriving DecidableEq, Repr

/-- The characters a token occupies in the source text. -/
def tokSource : Tok → String
  | .plain c => String.singleton c
  | .url u _ => u

/-- Modelled from the spec: left-to-right scan of the text for the fixed
video-URL pattern; positions where no match starts contribute their
character unchanged. -/
def scanTokens : List Char → List Tok
  | [] => []
  | c :: cs =>
      match h : tryMatchUrl (c :: cs) with
      | some (u, vid, rest) => .url u vid :: scanTokens rest
      | none => .plain c :: scanTokens cs
termination_by l => l.length
decreasing_by
  · exact tryMatchUrl_rest_lt h
  · simp

/-- Modelled from the spec: what gets spliced immediately after a matched
URL — the fetched concatenated caption text when the external
transcript-caption request (abstracted as `oracle`, keyed by the
11-character id) succeeds, a "transcript not available" marker when it
fails.  Requests for the URLs of one file run concurrently and are joined
before any splicing; the pure oracle abstracts that join. -/
def spliceFor (oracle : String → Option String) (vid : String) : String :=
  match oracle vid with
  | some captions => captions
  | none => "[Transcript not available]"

/-- Render one token of the spliced output: plain characters byte-for-byte,
URLs followed immediately by their splice. -/
def renderTok (oracle : String → Option String) : Tok → String
  | .plain c => String.singleton c
  | .url u vid => u ++ spliceFor oracle vid

/-- Modelled from the spec: transcript splicing of plain-text content — the
concatenation of the rendered tokens of the scan, in source order. -/
def spliceTranscripts (oracle : String → Option String) (text : String) : String :=
  String.join ((scanTokens text.data).map (renderTok oracle))

/-- Modelled from the spec: the plain-text (default) branch of the content
extractor with transcript splicing applied to the decoded text (§4.3; the
revision of `readFileContent` implementing the splicing step is not among
the provided sources, whose plain branch returns the text unchanged). -/
def readPlainWithTranscripts (oracle : String → Option String)
    (fb : FileBehavior) (relativePath : String) : String :=
  match fb.readText with
  | .ok content => spliceTranscripts oracle content
  | .error _ =>
      "--- Error reading file: " ++ relativePath ++ ". Content omitted. ---"

theorem scanTokens_lossless (l : List Char) :
    ((scanTokens l).map (fun t => (tokSource t).data)).flatten = l := by
  induction l using scanTokens.induct with
  | case1 => simp [scanTokens]
  | case2 c cs u vid rest h ih =>
      rw [scanTokens, h]
      simp only [List.map_cons, List.flatten_cons]
      rw [ih]
      exact (tryMatchUrl_eq h).1
  | case3 c cs h ih =>
      rw [scanTokens, h]
      simp only [List.map_cons, List.flatten_cons]
      rw [ih]
      simp [tokSource, String.singleton]

theorem strJoin_cons (s : String) (l : List String) :
    String.join (s :: l) = s ++ String.join l := by
  rw [String.join_eq, String.join_eq]
  apply String.ext
  simp [String.data_append]

theorem appendFileBlocks_join (files : List FoundFile) (buf : String) :
    appendFileBlocks files buf = buf ++ String.join (files.map fileBlock) := by
  induction files generalizing buf with
  | nil => simp [appendFileBlocks, String.join, String.append_empty]
  | cons f rest ih =>
      rw [appendFileBlocks, ih, List.map_cons, strJoin_cons, String.append_assoc]

theorem hasSubList_middle (a pat b : List Char) :
    hasSubList pat (a ++ (pat ++ b)) = true := by
  induction a with
  | nil =>
      rw [List.nil_append]
      cases hpb : pat ++ b with
      | nil =>
          have : pat = [] := by
            cases pat with
            | nil => rfl
            | cons x xs => simp at hpb
          rw [this]
          rfl
      | cons c cs =>
          rw [hasSubList]
          have : pat.isPrefixOf (c :: cs) = true := by
            rw [← hpb]
            exact List.isPrefixOf_iff_prefix.mpr (List.prefix_append pat b)
          rw [this, Bool.true_or]
  | cons x xs ih =>
      rw [List.cons_append, hasSubList, ih, Bool.or_true]

theorem strIncludes_middle (a pat b : String) :
    strIncludes (a ++ pat ++ b) pat = true := by
  unfold strIncludes
  rw [String.append_assoc]
  rw [String.data_append, String.data_append]
  exact hasSubList_middle a.data pat.data b.data

/-- The connector-and-name line the loop prints for an entry. -/
def entryLine (pre : String) (isLast : Bool) (n : String) : String :=
  pre ++ (if isLast then "└── " else "├── ") ++ n ++ "\n"

theorem travEntry_file (rootName : String) (relDir : List String) (pre : String)
    (isLast : Bool) (n : String) (fb : FileBehavior) :
    travEntry rootName relDir pre isLast (.file n fb) =
      { structureOutput := entryLine pre isLast n
        textFiles :=
          if !(IGNORED_FILES.contains n) && isTextFile n then
            [{ relDir := relDir, name := n, fb := fb }]
          else []
        logLines := [] } := by
  simp [travEntry, entryLine]

theorem travEntry_other (rootName : String) (relDir : List String) (pre : String)
    (isLast : Bool) (n : String) :
    travEntry rootName relDir pre isLast (.other n) =
      { structureOutput := entryLine pre isLast n, textFiles := [], logLines := [] } := by
  simp [travEntry, entryLine]

theorem travEntry_dir_err (rootName : String) (relDir : List String) (pre : String)
    (isLast : Bool) (n msg : String) (children : List FsEntry) :
    travEntry rootName relDir pre isLast (.dir n (some msg) children) =
      { structureOutput := entryLine pre isLast n
        textFiles := []
        logLines := [dirReadErrorLog rootName (relDir ++ [n]) msg] } := by
  simp [travEntry, entryLine]

theorem travEntry_dir_none (rootName : String) (relDir : List String) (pre : String)
    (isLast : Bool) (n : String) (children : List FsEntry) :
    travEntry rootName relDir pre isLast (.dir n none children) =
      { structureOutput := entryLine pre isLast n ++
          (processDir rootName (relDir ++ [n])
            (pre ++ (if isLast then "    " else "│   ")) children).structureOutput
        textFiles := (processDir rootName (relDir ++ [n])
          (pre ++ (if isLast then "    " else "│   ")) children).textFiles
        logLines := (processDir rootName (relDir ++ [n])
          (pre ++ (if isLast then "    " else "│   ")) children).logLines } := by
  simp [travEntry, processDir, entryLine]

theorem travChildren_cons_cons (rootName : String) (relDir : List String)
    (pre : String) (e e2 : FsEntry) (rest : List FsEntry) :
    travChildren rootName relDir pre (e :: e2 :: rest) =
      { structureOutput := (travEntry rootName relDir pre false e).structureOutput ++
          (travChildren rootName relDir pre (e2 :: rest)).structureOutput
        textFiles := (travEntry rootName relDir pre false e).textFiles ++
          (travChildren rootName relDir pre (e2 :: rest)).textFiles
        logLines := (travEntry rootName relDir pre false e).logLines ++
          (travChildren rootName relDir pre (e2 :: rest)).logLines } := by
  simp [travChildren]

theorem travChildren_split (rootName : String) (relDir : List String) (pre : String)
    (l₁ l₂ : List FsEntry) (e : FsEntry) :
    ∃ a : String,
      (travChildren rootName relDir pre (l₁ ++ e :: l₂)).structureOutput =
        a ++ (travEntry rootName relDir pre l₂.isEmpty e).structureOutput ++
          (travChildren rootName relDir pre l₂).structureOutput := by
  induction l₁ with
  | nil =>
      refine ⟨"", ?_⟩
      cases l₂ with
      | nil =>
          simp only [List.nil_append, List.isEmpty_nil]
          rw [show travChildren rootName relDir pre [e]
              = travEntry rootName relDir pre true e from by simp [travChildren]]
          rw [show travChildren rootName relDir pre []
              = { structureOutput := "", textFiles := [], logLines := [] } from by
            simp [travChildren]]
          rw [String.empty_append, String.append_empty]
      | cons x xs =>
          simp only [List.nil_append, List.isEmpty_cons]
          rw [travChildren_cons_cons, String.empty_append]
  | cons y ys ih =>
      obtain ⟨a, ha⟩ := ih
      refine ⟨(travEntry rootName relDir pre false y).structureOutput ++ a, ?_⟩
      obtain ⟨z, zs, hz⟩ : ∃ z zs, ys ++ e :: l₂ = z :: zs := by
        cases ys with
        | nil => exact ⟨e, l₂, rfl⟩
        | cons u us => exact ⟨u, us ++ e :: l₂, rfl⟩
      rw [List.cons_append, hz, travChildren_cons_cons, ← hz, ha]
      rw [String.append_assoc, String.append_assoc, String.append_assoc]

theorem isTextFile_of_docExt (p : String)
    (h : toLowerStr (extname p) ∈ documentExtensions) : isTextFile p = true := by
  have h3 : toLowerStr (extname p) = ".pdf" ∨ toLowerStr (extname p) = ".docx" ∨
      toLowerStr (extname p) = ".doc" := by
    simpa [documentExtensions] using h
  rcases h3 with h1 | h1 | h1 <;> simp [isTextFile, h1]

theorem isTextFile_of_emptyExt (p : String)
    (h : toLowerStr (extname p) = "") : isTextFile p = true := by
  simp [isTextFile, h]

theorem isTextFile_of_nonText (p : String)
    (h : toLowerStr (extname p) ∈ NON_TEXT_EXTENSIONS) : isTextFile p = false := by
  have hall : ∀ x ∈ NON_TEXT_EXTENSIONS,
      x ≠ ".pdf" ∧ x ≠ ".docx" ∧ x ≠ ".doc" ∧ x ≠ "" := by decide
  obtain ⟨h1, h2, h3, h4⟩ := hall _ h
  simp [isTextFile, h1, h2, h3, h4, h]

theorem isTextFile_default (p : String)
    (hd : toLowerStr (extname p) ∉ documentExtensions)
    (hn : toLowerStr (extname p) ∉ NON_TEXT_EXTENSIONS) : isTextFile p = true := by
  have h1 : toLowerStr (extname p) ≠ ".pdf" := fun hc => hd (by simp [documentExtensions, hc])
  have h2 : toLowerStr (extname p) ≠ ".docx" := fun hc => hd (by simp [documentExtensions, hc])
  have h3 : toLowerStr (extname p) ≠ ".doc" := fun hc => hd (by simp [documentExtensions, hc])
  simp [isTextFile, h1, h2, h3, hn]

/-- C8: `isTextFile` is a pure function of the path's (lower-cased)
extension — document extensions and the empty extension yield `true`,
extensions in `NON_TEXT_EXTENSIONS` yield `false`, everything else defaults
to `true`. -/
theorem isTextFile_classification :
    (∀ p q : String, extname p = extname q → isTextFile p = isTextFile q) ∧
    (∀ p : String, toLowerStr (extname p) ∈ documentExtensions → isTextFile p = true) ∧
    (∀ p : String, toLowerStr (extname p) = "" → isTextFile p = true) ∧
    (∀ p : String, toLowerStr (extname p) ∈ NON_TEXT_EXTENSIONS → isTextFile p = false) ∧
    (∀ p : String, toLowerStr (extname p) ∉ documentExtensions →
      toLowerStr (extname p) ∉ NON_TEXT_EXTENSIONS → isTextFile p = true) := by
  refine ⟨?_, isTextFile_of_docExt, isTextFile_of_emptyExt, isTextFile_of_nonText,
    fun p hd hn => isTextFile_default p hd hn⟩
  intro p q h
  simp only [isTextFile, h]

/-- C8 witness: the classification evaluated on four concrete names. -/
theorem isTextFile_classification_witness :
    isTextFile "notes.pdf" = true ∧ isTextFile "Makefile" = true ∧
    isTextFile "image.png" = false ∧ isTextFile "main.py" = true := by
  refine ⟨isTextFile_classification.2.1 "notes.pdf" (by decide),
    isTextFile_classification.2.2.1 "Makefile" (by decide),
    isTextFile_classification.2.2.2.1 "image.png" (by decide),
    isTextFile_classification.2.2.2.2 "main.py" (by decide) (by decide)⟩

/-- Fixture: a plain-text file whose read succeeds and whose document
parsers would all fail (irrelevant for non-document extensions). -/
def fbText (s : String) : FileBehavior :=
  { readText := .ok s, pdf := .error "not a pdf", docx := .error "not a docx",
    doc := .error "not a doc" }

/-- C2 counterexample: in a tree containing `node_modules`, the directory
contributes no structure line at all — the traversal filters it out of the
entry list before the loop — contradicting the claim that it contributes
exactly one line. -/
theorem ignoredDir_zero_lines_cx :
    (traverseDirectory "demo" none
      [FsEntry.dir "node_modules" none [FsEntry.file "x.js" (fbText "noop")],
       FsEntry.file "a.txt" (fbText "hello")]).structureOutput = "└── a.txt\n" ∧
    strIncludes
      (traverseDirectory "demo" none
        [FsEntry.dir "node_modules" none [FsEntry.file "x.js" (fbText "noop")],
         FsEntry.file "a.txt" (fbText "hello")]).structureOutput "node_modules" = false := by
  have hs : (traverseDirectory "demo" none
      [FsEntry.dir "node_modules" none [FsEntry.file "x.js" (fbText "noop")],
       FsEntry.file "a.txt" (fbText "hello")]).structureOutput = "└── a.txt\n" := by
    simp [traverseDirectory, processDir, travChildren, travEntry, notIgnoredDir,
      List.filter, FsEntry.name, IGNORED_DIRS, IGNORED_FILES, isTextFile, extname,
      lastDotIdxAux, toLowerStr]
  refine ⟨hs, ?_⟩
  rw [hs]
  decide

/-- C2 amended: an entry whose name is in `ignoredDirNames` is filtered out
before the loop, so the traversal result — structure string, collected
files and log — is identical to the traversal of the same directory without
that entry: it is never descended into, no file beneath it reaches the
files list, and it contributes no structure line (zero lines, not one). -/
theorem ignoredDir_filtered_out (rootName : String) (relDir : List String)
    (pre : String) (l₁ l₂ : List FsEntry) (e : FsEntry)
    (h : e.name ∈ IGNORED_DIRS) :
    processDir rootName relDir pre (l₁ ++ e :: l₂) =
      processDir rootName relDir pre (l₁ ++ l₂) := by
  unfold processDir
  congr 1
  rw [List.filter_append, List.filter_append, List.filter_cons]
  have hni : notIgnoredDir e = false := by simp [notIgnoredDir, h]
  simp [hni]

/-- C2 amended witness: the equation at a concrete tree containing a
populated `node_modules` directory. -/
theorem ignoredDir_filtered_out_witness :
    processDir "demo" [] ""
      [FsEntry.dir "node_modules" none [FsEntry.file "x.js" (fbText "noop")],
       FsEntry.file "a.txt" (fbText "hello")] =
      processDir "demo" [] "" [FsEntry.file "a.txt" (fbText "hello")] :=
  ignoredDir_filtered_out "demo" [] "" []
    [FsEntry.file "a.txt" (fbText "hello")]
    (FsEntry.dir "node_modules" none [FsEntry.file "x.js" (fbText "noop")])
    (by decide)

theorem name_mem_ignoredFiles_not_dir {n : String} (h : n ∈ IGNORED_FILES) :
    n ∉ IGNORED_DIRS := by
  have hall : ∀ x ∈ IGNORED_FILES, x ∉ IGNORED_DIRS := by decide
  exact hall n h

theorem name_nonTextExt_not_dir {n : String}
    (h : toLowerStr (extname n) ∈ NON_TEXT_EXTENSIONS) : n ∉ IGNORED_DIRS := by
  intro hmem
  have hext : ∀ x ∈ IGNORED_DIRS, extname x = "" := by decide
  have hempty : toLowerStr (extname n) = "" := by rw [hext n hmem]; rfl
  rw [hempty] at h
  exact absurd h (by decide)

/-- C7: a file entry whose name is in `IGNORED_FILES`, or whose lower-cased
extension is in `NON_TEXT_EXTENSIONS` and not a document extension, gets its
tree line in the structure string of the directory listing it, but leaves
the collected files exactly as if the entry were absent (so it never yields
a content block).  `processDir` is the body the traversal runs at the root
and at every recursion level. -/
theorem excludedFile_structure_only (rootName : String) (relDir : List String)
    (pre : String) (l₁ l₂ : List FsEntry) (n : String) (fb : FileBehavior)
    (h : n ∈ IGNORED_FILES ∨
      (toLowerStr (extname n) ∈ NON_TEXT_EXTENSIONS ∧
        toLowerStr (extname n) ∉ documentExtensions)) :
    (∃ a b : String, ∃ isLast : Bool,
      (processDir rootName relDir pre (l₁ ++ FsEntry.file n fb :: l₂)).structureOutput =
        a ++ entryLine pre isLast n ++ b) ∧
    (processDir rootName relDir pre (l₁ ++ FsEntry.file n fb :: l₂)).textFiles =
      (processDir rootName relDir pre (l₁ ++ l₂)).textFiles := by
  have hnd : n ∉ IGNORED_DIRS := by
    rcases h with hf | ⟨hn, _⟩
    · exact name_mem_ignoredFiles_not_dir hf
    · exact name_nonTextExt_not_dir hn
  have hni : notIgnoredDir (FsEntry.file n fb) = true := by
    simp [notIgnoredDir, FsEntry.name, hnd]
  have hfil : List.filter notIgnoredDir (l₁ ++ FsEntry.file n fb :: l₂) =
      List.filter notIgnoredDir l₁ ++
        FsEntry.file n fb :: List.filter notIgnoredDir l₂ := by
    rw [List.filter_append, List.filter_cons]
    simp [hni]
  constructor
  · unfold processDir
    rw [hfil]
    obtain ⟨a, ha⟩ := travChildren_split rootName relDir pre
      (List.filter notIgnoredDir l₁) (List.filter notIgnoredDir l₂) (FsEntry.file n fb)
    refine ⟨a, (travChildren rootName relDir pre
      (List.filter notIgnoredDir l₂)).structureOutput,
      (List.filter notIgnoredDir l₂).isEmpty, ?_⟩
    rw [ha, travEntry_file]
  · rw [processDir_files, processDir_files, filesInPreorder_append, filesInPreorder_append]
    congr 1
    have hhead : filesInPreorder relDir (FsEntry.file n fb :: l₂) =
        filesInPreorder relDir l₂ := by
      rcases h with hf | ⟨hn, _⟩
      · simp [filesInPreorder, hf]
      · simp [filesInPreorder, isTextFile_of_nonText n hn]
    rw [hhead]

/-- C7 witness: a `.png` file next to a `.txt` file — the structure shows
`image.png`, the files list is the same as without it. -/
theorem excludedFile_structure_only_witness :
    (∃ a b : String, ∃ isLast : Bool,
      (processDir "demo" [] ""
        [FsEntry.file "image.png" (fbText "bin"),
         FsEntry.file "a.txt" (fbText "hello")]).structureOutput =
        a ++ entryLine "" isLast "image.png" ++ b) ∧
    (processDir "demo" [] ""
      [FsEntry.file "image.png" (fbText "bin"),
       FsEntry.file "a.txt" (fbText "hello")]).textFiles =
      (processDir "demo" [] "" [FsEntry.file "a.txt" (fbText "hello")]).textFiles :=
  excludedFile_structure_only "demo" [] "" []
    [FsEntry.file "a.txt" (fbText "hello")] "image.png" (fbText "bin")
    (Or.inr (by constructor <;> decide))

/-- C10 counterexample: a non-directory, non-regular-file entry (symlink,
FIFO) named `vendor` — a name in `IGNORED_DIRS` — is filtered out entirely
and receives no structure line, contradicting the claim that every such
entry receives its line in the structure string. -/
theorem other_entry_line_cx :
    traverseDirectory "demo" none [FsEntry.other "vendor"] =
      { structureOutput := "", textFiles := [], logLines := [] } ∧
    (traverseDirectory "demo" none [FsEntry.other "vendor"]).structureOutput ≠
      entryLine "" true "vendor" := by
  have hs : traverseDirectory "demo" none [FsEntry.other "vendor"] =
      { structureOutput := "", textFiles := [], logLines := [] } := by
    simp [traverseDirectory, processDir, travChildren, notIgnoredDir,
      FsEntry.name, IGNORED_DIRS, List.filter]
  refine ⟨hs, ?_⟩
  rw [hs]
  decide

/-- C10 amended: only regular-file entries are ever pushed onto the files
list — the collected files always equal `filesInPreorder`, which emits
entries only for `.file` nodes — and an entry that is neither a directory
nor a regular file is never recursed into, contributes no files, and, when
its name is not in `IGNORED_DIRS`, receives exactly its tree line in the
structure string. -/
theorem other_entry_structure_only (rootName : String) (relDir : List String)
    (pre : String) (isLast : Bool) (n : String) (l₁ l₂ : List FsEntry)
    (h : n ∉ IGNORED_DIRS) :
    travEntry rootName relDir pre isLast (.other n) =
      { structureOutput := entryLine pre isLast n, textFiles := [], logLines := [] } ∧
    (∃ a b : String, ∃ isL : Bool,
      (processDir rootName relDir pre (l₁ ++ FsEntry.other n :: l₂)).structureOutput =
        a ++ entryLine pre isL n ++ b) ∧
    (processDir rootName relDir pre (l₁ ++ FsEntry.other n :: l₂)).textFiles =
      (processDir rootName relDir pre (l₁ ++ l₂)).textFiles ∧
    (∀ l : List FsEntry,
      (processDir rootName relDir pre l).textFiles = filesInPreorder relDir l) := by
  have hni : notIgnoredDir (FsEntry.other n) = true := by
    simp [notIgnoredDir, FsEntry.name, h]
  have hfil : List.filter notIgnoredDir (l₁ ++ FsEntry.other n :: l₂) =
      List.filter notIgnoredDir l₁ ++
        FsEntry.other n :: List.filter notIgnoredDir l₂ := by
    rw [List.filter_append, List.filter_cons]
    simp [hni]
  refine ⟨travEntry_other rootName relDir pre isLast n, ?_, ?_, fun l => processDir_files rootName relDir pre l⟩
  · unfold processDir
    rw [hfil]
    obtain ⟨a, ha⟩ := travChildren_split rootName relDir pre
      (List.filter notIgnoredDir l₁) (List.filter notIgnoredDir l₂) (FsEntry.other n)
    refine ⟨a, (travChildren rootName relDir pre
      (List.filter notIgnoredDir l₂)).structureOutput,
      (List.filter notIgnoredDir l₂).isEmpty, ?_⟩
    rw [ha, travEntry_other]
  · rw [processDir_files, processDir_files, filesInPreorder_append, filesInPreorder_append]
    congr 1
    simp [filesInPreorder]

/-- C10 amended witness: a symlink-like entry `link.txt` next to `a.txt`. -/
theorem other_entry_structure_only_witness :
    travEntry "demo" [] "" false (.other "link.txt") =
      { structureOutput := entryLine "" false "link.txt", textFiles := [], logLines := [] } ∧
    (∃ a b : String, ∃ isL : Bool,
      (processDir "demo" [] ""
        [FsEntry.other "link.txt", FsEntry.file "a.txt" (fbText "hello")]).structureOutput =
        a ++ entryLine "" isL "link.txt" ++ b) ∧
    (processDir "demo" [] ""
      [FsEntry.other "link.txt", FsEntry.file "a.txt" (fbText "hello")]).textFiles =
      (processDir "demo" [] "" [FsEntry.file "a.txt" (fbText "hello")]).textFiles ∧
    (∀ l : List FsEntry,
      (processDir "demo" [] "" l).textFiles = filesInPreorder [] l) := by
  have h := other_entry_structure_only "demo" [] "" false "link.txt" []
    [FsEntry.file "a.txt" (fbText "hello")] (by decide)
  exact h

/-- C9: a directory whose `readdir` fails is caught — the entry keeps its
tree line, the subtree contributes an empty structure string, no files and
exactly one log line carrying the relative path; sibling entries before and
after it still contribute their files; at the root the failure yields the
empty structure and the log line, never an exception. -/
theorem dirReadError_nonfatal (rootName : String) (relDir : List String)
    (pre : String) (isLast : Bool) (n msg : String) (children : List FsEntry)
    (l₁ l₂ : List FsEntry) :
    travEntry rootName relDir pre isLast (.dir n (some msg) children) =
      { structureOutput := entryLine pre isLast n
        textFiles := []
        logLines := [dirReadErrorLog rootName (relDir ++ [n]) msg] } ∧
    (String.intercalate "/" (relDir ++ [n]) ≠ "" →
      dirReadErrorLog rootName (relDir ++ [n]) msg =
        "❌ Error reading directory \x27" ++
          String.intercalate "/" (relDir ++ [n]) ++ "\x27: " ++ msg) ∧
    (processDir rootName relDir pre
        (l₁ ++ FsEntry.dir n (some msg) children :: l₂)).textFiles =
      filesInPreorder relDir l₁ ++ filesInPreorder relDir l₂ ∧
    traverseDirectory rootName (some msg) children =
      { structureOutput := "", textFiles := []
        logLines := [dirReadErrorLog rootName [] msg] } := by
  refine ⟨travEntry_dir_err rootName relDir pre isLast n msg children, ?_, ?_, by
    simp [traverseDirectory]⟩
  · intro hne
    unfold dirReadErrorLog dirDisplayName
    simp [hne]
  · rw [processDir_files, filesInPreorder_append]
    congr 1
    cases hig : IGNORED_DIRS.contains n <;> simp [filesInPreorder, hig]

/-- C9 witness: an unreadable `secret` directory between two text files. -/
theorem dirReadError_nonfatal_witness :
    travEntry "demo" [] "" false (.dir "secret" (some "EACCES: permission denied") []) =
      { structureOutput := entryLine "" false "secret"
        textFiles := []
        logLines := [dirReadErrorLog "demo" ["secret"] "EACCES: permission denied"] } ∧
    dirReadErrorLog "demo" ["secret"] "EACCES: permission denied" =
      "❌ Error reading directory \x27secret\x27: EACCES: permission denied" ∧
    (processDir "demo" [] ""
        [FsEntry.file "a.txt" (fbText "hello"),
         FsEntry.dir "secret" (some "EACCES: permission denied") [],
         FsEntry.file "b.txt" (fbText "world")]).textFiles =
      filesInPreorder [] [FsEntry.file "a.txt" (fbText "hello")] ++
        filesInPreorder [] [FsEntry.file "b.txt" (fbText "world")] := by
  have h := dirReadError_nonfatal "demo" [] "" false "secret"
    "EACCES: permission denied" [] [FsEntry.file "a.txt" (fbText "hello")]
    [FsEntry.file "b.txt" (fbText "world")]
  exact ⟨h.1, h.2.1 (by decide), h.2.2.1⟩

/-- C6: `extractPdfText` returns exactly one of four outcomes — page-count
marker plus text on success with non-blank output; a distinct image-only
marker on blank output; a distinct password/encryption marker when the
failure message carries an indicator (and that marker differs from the
generic one for every file name); a generic failure marker otherwise. -/
theorem extractPdfText_outcomes (fb : FileBehavior) (base : String) :
    (∀ d : PdfData, fb.pdf = .ok d → jsTrim d.text ≠ "" →
      extractPdfText fb base =
        "[Extracted from " ++ toString d.numpages ++ " page(s)]\n\n" ++ d.text) ∧
    (∀ d : PdfData, fb.pdf = .ok d → (d.text = "" ∨ jsTrim d.text = "") →
      extractPdfText fb base =
        "--- No text extracted from PDF " ++ base ++
          " by pdf-parse. The PDF may be empty or contain only images. ---") ∧
    (∀ m : String, fb.pdf = .error m →
      (strIncludes m "Password" = true ∨ strIncludes m "encrypted" = true) →
      extractPdfText fb base =
        "--- Error: PDF " ++ base ++ " is likely password-protected or encrypted. ---") ∧
    (∀ m : String, fb.pdf = .error m → strIncludes m "Password" = false →
      strIncludes m "encrypted" = false →
      extractPdfText fb base =
        "--- Error extracting text from PDF " ++ base ++ " using pdf-parse. ---") ∧
    ("--- Error: PDF " ++ base ++ " is likely password-protected or encrypted. ---" ≠
      "--- Error extracting text from PDF " ++ base ++ " using pdf-parse. ---") := by
  refine ⟨?_, ?_, ?_, ?_, ?_⟩
  · intro d hok ht
    have hne : d.text ≠ "" := by
      intro hc
      apply ht
      rw [hc]
      rfl
    simp [extractPdfText, hok, hne, ht]
  · intro d hok ht
    rcases ht with ht | ht <;> simp [extractPdfText, hok, ht]
  · intro m herr hind
    rcases hind with hi | hi <;> simp [extractPdfText, herr, hi]
  · intro m herr h1 h2
    simp [extractPdfText, herr, h1, h2]
  · intro hc
    have hl := congrArg String.length hc
    rw [String.length_append, String.length_append, String.length_append,
      String.length_append] at hl
    have e1 : ("--- Error: PDF ").length = 15 := rfl
    have e2 : (" is likely password-protected or encrypted. ---").length = 47 := rfl
    have e3 : ("--- Error extracting text from PDF ").length = 35 := rfl
    have e4 : (" using pdf-parse. ---").length = 21 := rfl
    rw [e1, e2, e3, e4] at hl
    omega

/-- Fixture: a PDF whose parse succeeds with the given page count and text. -/
def fbPdfOk (n : Nat) (t : String) : FileBehavior :=
  { readText := .error "binary", pdf := .ok { numpages := n, text := t },
    docx := .error "x", doc := .error "x" }

/-- Fixture: a PDF whose parse throws with the given message. -/
def fbPdfErr (m : String) : FileBehavior :=
  { readText := .error "binary", pdf := .error m,
    docx := .error "x", doc := .error "x" }

/-- C6 witness: the four outcomes at concrete behaviors for `doc.pdf`. -/
theorem extractPdfText_outcomes_witness :
    extractPdfText (fbPdfOk 3 "Hello PDF") "doc.pdf" =
      "[Extracted from 3 page(s)]\n\nHello PDF" ∧
    extractPdfText (fbPdfOk 2 "  ") "doc.pdf" =
      "--- No text extracted from PDF doc.pdf by pdf-parse. The PDF may be empty or contain only images. ---" ∧
    extractPdfText (fbPdfErr "PasswordException") "doc.pdf" =
      "--- Error: PDF doc.pdf is likely password-protected or encrypted. ---" ∧
    extractPdfText (fbPdfErr "bad XRef entry") "doc.pdf" =
      "--- Error extracting text from PDF doc.pdf using pdf-parse. ---" := by
  refine ⟨?_, ?_, ?_, ?_⟩
  · have h := (extractPdfText_outcomes (fbPdfOk 3 "Hello PDF") "doc.pdf").1
      { numpages := 3, text := "Hello PDF" } rfl (by decide)
    rw [h]
    rfl
  · exact (extractPdfText_outcomes (fbPdfOk 2 "  ") "doc.pdf").2.1
      { numpages := 2, text := "  " } rfl (Or.inr (by decide))
  · exact (extractPdfText_outcomes (fbPdfErr "PasswordException") "doc.pdf").2.2.1
      "PasswordException" rfl (Or.inl (by decide))
  · exact (extractPdfText_outcomes (fbPdfErr "bad XRef entry") "doc.pdf").2.2.2.1
      "bad XRef entry" rfl (by decide) (by decide)

/-- C3: every branch of `readFileContent` resolves to a string — failures
are consumed and become human-readable markers (the plain-text branch's
marker retains the relative path) — and `generateProjectSummary` always
produces the two-section report, whatever the per-file or per-subtree
behaviors in the tree.  In the embedding a thrown exception is an
`Except.error`, and totality into `String` is the "never raises past this
boundary" guarantee. -/
theorem readFileContent_never_raises :
    (∀ (fb : FileBehavior) (n rel m : String),
      toLowerStr (extname n) ≠ ".pdf" → toLowerStr (extname n) ≠ ".docx" →
      toLowerStr (extname n) ≠ ".doc" → fb.readText = .error m →
      readFileContent fb n rel =
        "--- Error reading file: " ++ rel ++ ". Content omitted. ---" ∧
      strIncludes (readFileContent fb n rel) rel = true) ∧
    (∀ (fb : FileBehavior) (n rel : String),
      toLowerStr (extname n) = ".pdf" → readFileContent fb n rel = extractPdfText fb n) ∧
    (∀ (fb : FileBehavior) (n rel : String),
      toLowerStr (extname n) = ".docx" → readFileContent fb n rel = extractDocxText fb n) ∧
    (∀ (fb : FileBehavior) (n rel : String),
      toLowerStr (extname n) = ".doc" →
      readFileContent fb n rel = extractDocTextDirectly fb n) ∧
    (∀ (fb : FileBehavior) (n m : String), fb.docx = .error m →
      extractDocxText fb n = "--- Error extracting text from DOCX " ++ n ++ ". ---") ∧
    (∀ (fb : FileBehavior) (n m : String), fb.doc = .error m →
      extractDocTextDirectly fb n =
        "--- Error extracting text from DOC " ++ n ++
          " using doc-parser. The library might not support this specific file or format. ---") ∧
    (∀ (fb : FileBehavior) (n m : String), fb.pdf = .error m →
      extractPdfText fb n =
          "--- Error: PDF " ++ n ++ " is likely password-protected or encrypted. ---" ∨
      extractPdfText fb n =
          "--- Error extracting text from PDF " ++ n ++ " using pdf-parse. ---") ∧
    (∀ root : ProjectRoot, ∃ s1 s2 : String,
      generateProjectSummary root =
        "--- Section 1: Folder Structure ---\n" ++ root.rootName ++ "\n" ++ s1 ++
          "\n--- Section 2: File Contents (" ++
          toString (traverseDirectory root.rootName root.readErr
            root.children).textFiles.length ++ " files) ---\n" ++ s2) := by
  refine ⟨?_, ?_, ?_, ?_, ?_, ?_, ?_, ?_⟩
  · intro fb n rel m h1 h2 h3 herr
    have heq : readFileContent fb n rel =
        "--- Error reading file: " ++ rel ++ ". Content omitted. ---" := by
      simp [readFileContent, h1, h2, h3, herr]
    refine ⟨heq, ?_⟩
    rw [heq]
    exact strIncludes_middle "--- Error reading file: " rel ". Content omitted. ---"
  · intro fb n rel h
    simp [readFileContent, h]
  · intro fb n rel h
    simp [readFileContent, h]
  · intro fb n rel h
    simp [readFileContent, h]
  · intro fb n m h
    simp [extractDocxText, h]
  · intro fb n m h
    simp [extractDocTextDirectly, h]
  · intro fb n m h
    by_cases hi : (strIncludes m "Password" || strIncludes m "encrypted") = true
    · exact Or.inl (by simp [extractPdfText, h, hi])
    · refine Or.inr ?_
      simp only [Bool.or_eq_true, not_or, Bool.not_eq_true] at hi
      simp [extractPdfText, h, hi.1, hi.2]
  · intro root
    simp only [generateProjectSummary]
    split
    · exact ⟨(traverseDirectory root.rootName root.readErr root.children).structureOutput,
        "No text files found to display.\n", rfl⟩
    · rw [appendFileBlocks_join]
      exact ⟨(traverseDirectory root.rootName root.readErr root.children).structureOutput,
        String.join ((traverseDirectory root.rootName root.readErr
          root.children).textFiles.map fileBlock), rfl⟩

/-- C3 counterexample: for a `.pdf` file inside a subdirectory, the failure
marker carries only the base name (`path.basename`), not the relative path
`sub/doc.pdf` — so not every error marker retains the relative path. -/
theorem pdfMarker_lacks_relPath_cx :
    readFileContent (fbPdfErr "bad XRef entry") "doc.pdf" "sub/doc.pdf" =
      "--- Error extracting text from PDF doc.pdf using pdf-parse. ---" ∧
    strIncludes (readFileContent (fbPdfErr "bad XRef entry") "doc.pdf" "sub/doc.pdf")
      "sub/doc.pdf" = false := by
  decide

/-- C3 witness: the plain-text branch at an unreadable `data.csv`, the
dispatch for a `.pdf` name, and the report shape for a concrete root. -/
theorem readFileContent_never_raises_witness :
    (readFileContent (fbPdfErr "EISDIR") "data.csv" "sub/data.csv" =
        "--- Error reading file: sub/data.csv. Content omitted. ---" ∧
      strIncludes (readFileContent (fbPdfErr "EISDIR") "data.csv" "sub/data.csv")
        "sub/data.csv" = true) ∧
    readFileContent (fbPdfErr "bad XRef entry") "doc.pdf" "doc.pdf" =
      extractPdfText (fbPdfErr "bad XRef entry") "doc.pdf" ∧
    (∃ s1 s2 : String,
      generateProjectSummary { rootName := "demo", readErr := none, children := [] } =
        "--- Section 1: Folder Structure ---\n" ++ "demo" ++ "\n" ++ s1 ++
          "\n--- Section 2: File Contents (" ++
          toString (traverseDirectory "demo" none ([] : List FsEntry)).textFiles.length ++
          " files) ---\n" ++ s2) :=
  ⟨readFileContent_never_raises.1 (fbPdfErr "EISDIR") "data.csv" "sub/data.csv"
      "binary" (by decide) (by decide) (by decide) rfl,
    readFileContent_never_raises.2.1 (fbPdfErr "bad XRef entry") "doc.pdf" "doc.pdf"
      (by decide),
    readFileContent_never_raises.2.2.2.2.2.2.2
      { rootName := "demo", readErr := none, children := [] }⟩

/-- C1 (modelled from the spec — the revision with transcript splicing is
not among the provided sources): the plain-text branch with splicing
decomposes the decoded text losslessly into plain characters and matched
video URLs, in order of appearance; the output is the same decomposition
rendered with, immediately after each URL, either the fetched caption text
or the "transcript not available" marker, all non-matched text preserved
byte-for-byte.  The pure `oracle` abstracts the join of the concurrent
fetches, so splice order is source order by construction. -/
theorem spliceTranscripts_preserves (oracle : String → Option String)
    (fb : FileBehavior) (rel content : String) (h : fb.readText = .ok content) :
    readPlainWithTranscripts oracle fb rel = spliceTranscripts oracle content ∧
    ∃ toks : List Tok,
      String.join (toks.map tokSource) = content ∧
      spliceTranscripts oracle content = String.join (toks.map (renderTok oracle)) ∧
      (∀ c : Char, renderTok oracle (Tok.plain c) = String.singleton c) ∧
      (∀ u vid : String, renderTok oracle (Tok.url u vid) = u ++ spliceFor oracle vid) ∧
      (∀ vid t : String, oracle vid = some t → spliceFor oracle vid = t) ∧
      (∀ vid : String, oracle vid = none →
        spliceFor oracle vid = "[Transcript not available]") := by
  constructor
  · simp [readPlainWithTranscripts, h]
  · refine ⟨scanTokens content.data, ?_, rfl, fun c => rfl, fun u vid => rfl,
      ?_, ?_⟩
    · rw [String.join_eq]
      apply String.ext
      show (List.map String.data
        (List.map tokSource (scanTokens content.data))).flatten = content.data
      rw [List.map_map]
      exact scanTokens_lossless content.data
    · intro vid t ho
      simp [spliceFor, ho]
    · intro vid ho
      simp [spliceFor, ho]

/-- C1 witness: the splicing contract applied to the spec's example
sentence with an oracle that has no transcripts. -/
theorem spliceTranscripts_preserves_witness :
    readPlainWithTranscripts (fun _ => none)
        (fbText "See https://youtu.be/dQw4w9WgXcQ for details") "notes.txt" =
      spliceTranscripts (fun _ => none)
        "See https://youtu.be/dQw4w9WgXcQ for details" ∧
    ∃ toks : List Tok,
      String.join (toks.map tokSource) =
        "See https://youtu.be/dQw4w9WgXcQ for details" ∧
      spliceTranscripts (fun _ => none)
          "See https://youtu.be/dQw4w9WgXcQ for details" =
        String.join (toks.map (renderTok (fun _ => none))) ∧
      (∀ c : Char, renderTok (fun _ => none) (Tok.plain c) = String.singleton c) ∧
      (∀ u vid : String, renderTok (fun _ => none) (Tok.url u vid) =
        u ++ spliceFor (fun _ => none) vid) ∧
      (∀ vid t : String, (fun _ => none : String → Option String) vid = some t →
        spliceFor (fun _ => none) vid = t) ∧
      (∀ vid : String, (fun _ => none : String → Option String) vid = none →
        spliceFor (fun _ => none) vid = "[Transcript not available]") :=
  spliceTranscripts_preserves (fun _ => none)
    (fbText "See https://youtu.be/dQw4w9WgXcQ for details") "notes.txt"
    "See https://youtu.be/dQw4w9WgXcQ for details" rfl

/-- C4: the report carries exactly one content block per collected file —
`contentBlocks` and the rendered blocks are maps over the files list, so
none is skipped or duplicated and the order is the files-list order — and
for a readable root the files list is exactly the eligible files in
pre-order traversal order. -/
theorem contentBlocks_one_per_file (root : ProjectRoot) :
    (contentBlocks root).length =
      (traverseDirectory root.rootName root.readErr root.children).textFiles.length ∧
    ((traverseDirectory root.rootName root.readErr root.children).textFiles ≠ [] →
      generateProjectSummary root =
        "--- Section 1: Folder Structure ---\n" ++ root.rootName ++ "\n" ++
          (traverseDirectory root.rootName root.readErr root.children).structureOutput ++
          "\n--- Section 2: File Contents (" ++
          toString (traverseDirectory root.rootName root.readErr
            root.children).textFiles.length ++ " files) ---\n" ++
          String.join ((traverseDirectory root.rootName root.readErr
            root.children).textFiles.map fileBlock)) ∧
    ((traverseDirectory root.rootName root.readErr
        root.children).textFiles.map fileBlock).length =
      (traverseDirectory root.rootName root.readErr root.children).textFiles.length ∧
    (root.readErr = none →
      (traverseDirectory root.rootName root.readErr root.children).textFiles =
        filesInPreorder [] root.children) := by
  refine ⟨?_, ?_, List.length_map _ _, ?_⟩
  · unfold contentBlocks
    exact List.length_map _ _
  · intro hne
    simp only [generateProjectSummary]
    split
    · next hz =>
        exfalso
        apply hne
        have : (traverseDirectory root.rootName root.readErr
            root.children).textFiles.length = 0 := by
          simpa using hz
        exact List.length_eq_zero.mp this
    · rw [appendFileBlocks_join]
  · intro h
    rw [h]
    exact traverseDirectory_files root.rootName root.children

/-- Fixture: a root with two eligible text files. -/
def demoTwoFiles : ProjectRoot :=
  { rootName := "demo", readErr := none,
    children := [FsEntry.file "a.txt" (fbText "hello"),
      FsEntry.file "b.md" (fbText "world\n")] }

/-- C4 witness: a two-file tree — two blocks, in traversal order, matching
the pre-order file list. -/
theorem contentBlocks_one_per_file_witness :
    (contentBlocks demoTwoFiles).length =
      (traverseDirectory demoTwoFiles.rootName demoTwoFiles.readErr
        demoTwoFiles.children).textFiles.length ∧
    (traverseDirectory demoTwoFiles.rootName demoTwoFiles.readErr
        demoTwoFiles.children).textFiles =
      filesInPreorder [] demoTwoFiles.children := by
  have h := contentBlocks_one_per_file demoTwoFiles
  exact ⟨h.1, h.2.2.2 rfl⟩

/-- C5: the assembled report reproduces the delimiter text exactly — the
Section 1 header then the root label and structure, the Section 2 header
carrying the file count, the per-file framing lines, and the explicit
"no text files" line when the files list is empty. -/
theorem report_delimiters_exact (root : ProjectRoot) :
    ((traverseDirectory root.rootName root.readErr root.children).textFiles = [] →
      generateProjectSummary root =
        "--- Section 1: Folder Structure ---\n" ++ root.rootName ++ "\n" ++
          (traverseDirectory root.rootName root.readErr root.children).structureOutput ++
          "\n--- Section 2: File Contents (" ++ toString (0 : Nat) ++ " files) ---\n" ++
          "No text files found to display.\n") ∧
    ((traverseDirectory root.rootName root.readErr root.children).textFiles ≠ [] →
      generateProjectSummary root =
        "--- Section 1: Folder Structure ---\n" ++ root.rootName ++ "\n" ++
          (traverseDirectory root.rootName root.readErr root.children).structureOutput ++
          "\n--- Section 2: File Contents (" ++
          toString (traverseDirectory root.rootName root.readErr
            root.children).textFiles.length ++ " files) ---\n" ++
          String.join ((traverseDirectory root.rootName root.readErr
            root.children).textFiles.map fileBlock)) ∧
    (∀ f : FoundFile, fileBlock f =
      "\n--- File: " ++ relPathOf f ++ " ---\n" ++
        readFileContent f.fb f.name (relPathOf f) ++
        (if !(readFileContent f.fb f.name (relPathOf f) == "") &&
            !(strEndsWith (readFileContent f.fb f.name (relPathOf f)) "\n") then "\n"
         else "") ++
        "--- End of File: " ++ relPathOf f ++ " ---\n") := by
  refine ⟨?_, ?_, fun f => rfl⟩
  · intro hz
    simp only [generateProjectSummary]
    split
    · next h0 =>
        rw [hz]
        rfl
    · next h0 =>
        exfalso
        apply h0
        rw [hz]
        rfl
  · intro hne
    simp only [generateProjectSummary]
    split
    · next hz =>
        exfalso
        apply hne
        have : (traverseDirectory root.rootName root.readErr
            root.children).textFiles.length = 0 := by
          simpa using hz
        exact List.length_eq_zero.mp this
    · rw [appendFileBlocks_join]

/-- Fixture: an empty root directory. -/
def demoEmpty : ProjectRoot := { rootName := "demo", readErr := none, children := [] }

/-- Fixture: a root with a single text file `a.txt` containing `hello`. -/
def demoOneFile : ProjectRoot :=
  { rootName := "demo", readErr := none,
    children := [FsEntry.file "a.txt" (fbText "hello")] }

/-- C5 witness: two complete concrete reports — an empty root (explicit
"no text files" line, count 0) and a one-file root (framed block, count 1). -/
theorem report_delimiters_exact_witness :
    generateProjectSummary demoEmpty =
      "--- Section 1: Folder Structure ---\ndemo\n\n--- Section 2: File Contents (0 files) ---\nNo text files found to display.\n" ∧
    generateProjectSummary demoOneFile =
      "--- Section 1: Folder Structure ---\ndemo\n└── a.txt\n\n--- Section 2: File Contents (1 files) ---\n\n--- File: a.txt ---\nhello\n--- End of File: a.txt ---\n" := by
  constructor
  · have h := (report_delimiters_exact demoEmpty).1 (by
        simp [demoEmpty, traverseDirectory, processDir, travChildren, List.filter])
    rw [h]
    simp only [demoEmpty, traverseDirectory, processDir, travChildren, List.filter]
    decide
  · have hfiles : (traverseDirectory demoOneFile.rootName demoOneFile.readErr
        demoOneFile.children).textFiles =
        [{ relDir := [], name := "a.txt", fb := fbText "hello" }] := by
      simp [demoOneFile, traverseDirectory, processDir, travChildren, travEntry,
        notIgnoredDir, List.filter, FsEntry.name, IGNORED_DIRS, IGNORED_FILES,
        isTextFile, extname, lastDotIdxAux, toLowerStr]
      decide
    have h := (report_delimiters_exact demoOneFile).2.1 (by
        rw [hfiles]
        decide)
    rw [h, hfiles]
    have hstruct : (traverseDirectory demoOneFile.rootName demoOneFile.readErr
        demoOneFile.children).structureOutput = "└── a.txt\n" := by
      simp [demoOneFile, traverseDirectory, processDir, travChildren, travEntry,
        notIgnoredDir, List.filter, FsEntry.name, IGNORED_DIRS, IGNORED_FILES,
        isTextFile, extname, lastDotIdxAux, toLowerStr]
    rw [hstruct]
    decide

end Summarizer
